import Mathlib

/-!
Verification of the workflow graph store and save/execute orchestration of the
No-Code-Low-Code repository.  The definitions below are a shallow embedding of
`src/Frontend/my-genai-stack/src/store/workflowStore.ts` and of the validation
and run handler in `src/pages/WorkflowBuilderPage.jsx` (src/unnamed/part_006).
JavaScript objects holding node configurations are modelled as association
lists of string keys and JS values; asynchronous fetch calls are modelled by
passing the remote response as an explicit argument and recording the requests
that the code issues.
-/

namespace Workflow

/-- A JavaScript value as it appears in node configurations: strings, booleans,
numbers, `null`, `undefined`, and the opaque in-memory `File` handle stored by
the knowledge-base node. -/
inductive JVal where
  | vStr : String → JVal
  | vBool : Bool → JVal
  | vNum : Int → JVal
  | vNull : JVal
  | vUndefined : JVal
  | vFile : JVal
deriving DecidableEq, Repr

/-- JavaScript truthiness of a value (`""`, `0`, `false`, `null`, `undefined`
are falsy; object values such as a `File` are truthy). -/
def JVal.truthy : JVal → Bool
  | .vStr s => decide (s ≠ "")
  | .vBool b => b
  | .vNum n => decide (n ≠ 0)
  | .vNull => false
  | .vUndefined => false
  | .vFile => true

/-- A JavaScript object (insertion-ordered string-keyed map). -/
abbrev Obj := List (String × JVal)

/-- Key lookup in an insertion-ordered map (JS property access on own keys). -/
def alookup {β : Type} : List (String × β) → String → Option β
  | [], _ => none
  | (k', v) :: rest, k => if k' = k then some v else alookup rest k

/-- JS property read `o[k]`: a missing key reads as `undefined`. -/
def objGet (o : Obj) (k : String) : JVal := (alookup o k).getD .vUndefined

/-- JS object update `\x7b...o, k: v\x7d`: an existing key keeps its position and
gets the new value, a fresh key is appended at the end. -/
def objSet {β : Type} (o : List (String × β)) (k : String) (v : β) :
    List (String × β) :=
  if (alookup o k).isSome then
    o.map (fun kv => if kv.1 = k then (k, v) else kv)
  else o ++ [(k, v)]

/-- JS object spread `\x7b...a, ...b\x7d`: keys of `a` in order, overridden by
`b` where present, followed by the keys of `b` that are not in `a`. -/
def mergeObj (a b : Obj) : Obj :=
  a.map (fun kv =>
    match alookup b kv.1 with
    | some v => (kv.1, v)
    | none => kv) ++
  b.filter (fun kv => (alookup a kv.1).isNone)

/-- The effect of `JSON.stringify` on an object: keys whose value is
`undefined` are dropped from the serialized form. -/
def stripUndefined (o : Obj) : Obj := o.filter (fun kv => kv.2 ≠ .vUndefined)

/-- A 2D canvas position; opaque pass-through state for the store. -/
structure Pos where
  x : Int
  y : Int
deriving DecidableEq, Repr

/-- The `data` object carried by a node.  Throughout the repository it holds
the optional keys `type` (the node kind tag), `name`, `label`, and `config`. -/
structure NodeData where
  type : Option String := none
  name : Option String := none
  label : Option String := none
  config : Option Obj := none
deriving DecidableEq, Repr

/-- An editor-side (React Flow) node. -/
structure Node where
  id : String
  type : Option String := none
  position : Pos := ⟨0, 0⟩
  data : NodeData := {}
deriving DecidableEq, Repr

/-- The inline style object put on edges by the store. -/
structure EdgeStyle where
  stroke : String
  strokeWidth : Int
deriving DecidableEq, Repr

/-- An editor-side (React Flow) edge. -/
structure Edge where
  id : String
  source : String
  target : String
  sourceHandle : Option String := none
  targetHandle : Option String := none
  type : Option String := none
  animated : Option Bool := none
  style : Option EdgeStyle := none
  data : Option Obj := none
deriving DecidableEq, Repr

/-- A connection request as delivered by React Flow to `onConnect`. -/
structure Connection where
  source : String
  target : String
  sourceHandle : Option String := none
  targetHandle : Option String := none
deriving DecidableEq, Repr

/-- A wire-shape node as sent to / received from the backend
(`nodesToDict` output). `position` and `type` are optional because the loader
defends against their absence. -/
structure WNode where
  id : String
  type : Option String := none
  position : Option Pos := none
  data : NodeData := {}
deriving DecidableEq, Repr

/-- A wire-shape edge (`edgesToDict` output): handles are explicit
(string-or-null), `type` and `data` are always present. -/
structure WEdge where
  id : String
  source : String
  target : String
  sourceHandle : Option String := none
  targetHandle : Option String := none
  type : String := "smoothstep"
  data : Obj := []
deriving DecidableEq, Repr

/-- Id-keyed wire map of nodes. -/
abbrev WireNodes := List (String × WNode)

/-- Id-keyed wire map of edges. -/
abbrev WireEdges := List (String × WEdge)

/-- JS dictionary assignment `d[k] = v` used while building the wire maps. -/
def dictInsert {β : Type} (d : List (String × β)) (k : String) (v : β) :
    List (String × β) := objSet d k v

/-- JS `a || b` on optional strings: an absent or empty string falls back. -/
def strOr (a b : Option String) : Option String :=
  match a with
  | some s => if s = "" then b else some s
  | none => b

/-- JS `s || null`: an absent or empty string becomes null (`none`). -/
def strOrNull (a : Option String) : Option String := strOr a none

/-- `getNodeName` of workflowStore.ts: display name for a node type tag. -/
def getNodeName (t : String) : String :=
  if t = "userQueryNode" then "UserQuery"
  else if t = "knowledgeBaseNode" then "KnowledgeBase"
  else if t = "llmNode" then "LLMEngine"
  else if t = "outputNode" then "Output"
  else if t = "webSearchNode" then "WebSearch"
  else t

/-- `convertNodeType` of workflowStore.ts: frontend node type to backend node
type; unknown strings pass through. -/
def convertNodeType (t : String) : String :=
  if t = "userQueryNode" then "userQuery"
  else if t = "outputNode" then "output"
  else if t = "llmNode" then "llmEngine"
  else if t = "knowledgeBaseNode" then "knowledgeBase"
  else if t = "webSearchNode" then "webSearch"
  else t

/-- `convertBackendNodeType` of workflowStore.ts: backend node type to
frontend node type; unknown strings pass through. -/
def convertBackendNodeType (t : String) : String :=
  if t = "userQuery" then "userQueryNode"
  else if t = "output" then "outputNode"
  else if t = "llmEngine" then "llmNode"
  else if t = "knowledgeBase" then "knowledgeBaseNode"
  else if t = "webSearch" then "webSearchNode"
  else t

/-- Lift of `convertNodeType` to a possibly-undefined argument:
`typeMapping[undefined] || undefined` is `undefined`. -/
def convertNodeTypeO : Option String → Option String
  | some t => some (convertNodeType t)
  | none => none

/-- Lift of `convertBackendNodeType` to a possibly-undefined argument. -/
def convertBackendNodeTypeO : Option String → Option String
  | some t => some (convertBackendNodeType t)
  | none => none

/-- `determineEdgeName` of workflowStore.ts: derives the semantic edge label
from the endpoint nodes' `data.type` tags and the connection handles; either
endpoint missing from the node list gives "Unknown". -/
def determineEdgeName (conn : Connection) (nodes : List Node) : String :=
  match nodes.find? (fun n => n.id = conn.source),
        nodes.find? (fun n => n.id = conn.target) with
  | some sourceNode, some targetNode =>
    if sourceNode.data.type = some "userQueryNode" then "Query"
    else if targetNode.data.type = some "knowledgeBaseNode" ∧
            conn.targetHandle = some "kb-input" then "Query Intake"
    else if sourceNode.data.type = some "knowledgeBaseNode" ∧
            conn.sourceHandle = some "kb-output" then "Context"
    else if targetNode.data.type = some "llmNode" ∧
            conn.targetHandle = some "context-input" then "Context"
    else if targetNode.data.type = some "llmNode" ∧
            conn.targetHandle = some "query-input" then "Query"
    else if sourceNode.data.type = some "llmNode" ∧
            conn.sourceHandle = some "llm-output" then "Answer"
    else if targetNode.data.type = some "outputNode" then "Final Output"
    else "Connection"
  | _, _ => "Unknown"

/-- Truthiness of an optional string (JS: absent and `""` are falsy). -/
def truthyStr : Option String → Bool
  | some s => decide (s ≠ "")
  | none => false

/-- Modelled from the `reactflow` library's `connectionExists` helper (the
store imports `addEdge` from reactflow): an edge duplicates an existing one
when source, target and both handles agree, where an absent handle and a falsy
handle count as equal. -/
def connectionExists (e : Edge) (edges : List Edge) : Bool :=
  edges.any fun el =>
    el.source = e.source ∧ el.target = e.target ∧
    (el.sourceHandle = e.sourceHandle ∨
      (¬ truthyStr el.sourceHandle ∧ ¬ truthyStr e.sourceHandle)) ∧
    (el.targetHandle = e.targetHandle ∨
      (¬ truthyStr el.targetHandle ∧ ¬ truthyStr e.targetHandle))

/-- Modelled from the `reactflow` library's `addEdge` (imported by the store):
an edge with a falsy source or target id is dropped, a duplicate connection is
dropped, otherwise the edge is appended.  No existence check against the node
set is performed. -/
def addEdge (e : Edge) (edges : List Edge) : List Edge :=
  if e.source = "" ∨ e.target = "" then edges
  else if connectionExists e edges then edges
  else edges ++ [e]

/-- The wire node built for one editor node inside `nodesToDict`; the
`uploadedFile` config entry is overwritten with `undefined` before sending,
and an absent config becomes the empty object. -/
def wireOfNode (n : Node) : WNode :=
  { id := n.id
    type := convertNodeTypeO (strOr n.type n.data.type)
    position := some n.position
    data :=
      { n.data with
        type := convertNodeTypeO (strOr n.data.type n.type)
        config :=
          match n.data.config with
          | some c => some (objSet c "uploadedFile" .vUndefined)
          | none => some [] } }

/-- `nodesToDict` of workflowStore.ts: builds the id-keyed wire map of nodes
by JS dictionary assignment in array order. -/
def nodesToDict (nodes : List Node) : WireNodes :=
  nodes.foldl (fun d n => dictInsert d n.id (wireOfNode n)) []

/-- The wire edge built for one editor edge inside `edgesToDict`. -/
def wireOfEdge (e : Edge) : WEdge :=
  { id := e.id
    source := e.source
    target := e.target
    sourceHandle := strOrNull e.sourceHandle
    targetHandle := strOrNull e.targetHandle
    type := (strOr e.type (some "smoothstep")).getD "smoothstep"
    data := e.data.getD [] }

/-- `edgesToDict` of workflowStore.ts: builds the id-keyed wire map of edges
by JS dictionary assignment in array order. -/
def edgesToDict (edges : List Edge) : WireEdges :=
  edges.foldl (fun d e => dictInsert d e.id (wireOfEdge e)) []

/-- The editor node rebuilt from one wire node inside `dictToNodes`. -/
def nodeOfWire (w : WNode) : Node :=
  { id := w.id
    type := convertBackendNodeTypeO w.type
    position := w.position.getD ⟨0, 0⟩
    data := { w.data with
      type := convertBackendNodeTypeO (strOr w.type w.data.type) } }

/-- `dictToNodes` of workflowStore.ts: a missing or malformed map yields the
empty node list, otherwise the values of the map in insertion order are
converted back to editor nodes. -/
def dictToNodes (nodesDict : Option WireNodes) : List Node :=
  match nodesDict with
  | none => []
  | some d => d.map (fun kv => nodeOfWire kv.2)

/-- The editor edge rebuilt from one wire edge inside `dictToEdges`
(`animated` and the fixed stroke style are re-attached). -/
def edgeOfWire (w : WEdge) : Edge :=
  { id := w.id
    source := w.source
    target := w.target
    sourceHandle := w.sourceHandle
    targetHandle := w.targetHandle
    type := some (if w.type = "" then "smoothstep" else w.type)
    animated := some true
    style := some ⟨"#FF6B6B", 2⟩
    data := some w.data }

/-- `dictToEdges` of workflowStore.ts: a missing or malformed map yields the
empty edge list. -/
def dictToEdges (edgesDict : Option WireEdges) : List Edge :=
  match edgesDict with
  | none => []
  | some d => d.map (fun kv => edgeOfWire kv.2)

/-- The serialized form of a wire node as transmitted by
`JSON.stringify(payload)` in `saveWorkflow`: `undefined`-valued config keys
(the stripped `uploadedFile`) disappear. -/
def serializeWNode (w : WNode) : WNode :=
  { w with data := { w.data with config := w.data.config.map stripUndefined } }

/-- The transmitted form of the node map. -/
def serializeWireNodes (d : WireNodes) : WireNodes :=
  d.map (fun kv => (kv.1, serializeWNode kv.2))

/-- The running accumulator of `extractApiKeys` (`llm`, `knowledge`,
`websearch` start as empty strings and are overwritten in array order). -/
structure ApiKeysAcc where
  llm : JVal := .vStr ""
  knowledge : JVal := .vStr ""
  websearch : JVal := .vStr ""
deriving DecidableEq, Repr

/-- The filtered secrets bundle: only truthy keys are kept
(`filteredApiKeys` in workflowStore.ts). -/
structure ApiKeys where
  llm : Option JVal := none
  knowledge : Option JVal := none
  websearch : Option JVal := none
deriving DecidableEq, Repr

/-- `node.data.type === t || node.type === t` as used by `extractApiKeys`. -/
def nodeIsType (n : Node) (t : String) : Bool :=
  n.data.type = some t ∨ n.type = some t

/-- One iteration of the `nodes.forEach` loop of `extractApiKeys`. -/
def extractStep (acc : ApiKeysAcc) (n : Node) : ApiKeysAcc :=
  match n.data.config with
  | none => acc
  | some config =>
    let a1 :=
      if nodeIsType n "llmNode" ∧ (objGet config "apiKey").truthy then
        { acc with llm := objGet config "apiKey" }
      else acc
    let a2 :=
      if nodeIsType n "knowledgeBaseNode" ∧ (objGet config "apiKey").truthy then
        { a1 with knowledge := objGet config "apiKey" }
      else a1
    if (nodeIsType n "llmNode" ∧ (objGet config "serpApiKey").truthy) ∨
       (nodeIsType n "webSearchNode" ∧ (objGet config "serpApiKey").truthy) then
      { a2 with websearch := objGet config "serpApiKey" }
    else a2

/-- `extractApiKeys` of workflowStore.ts: scan the nodes in array order,
remembering the last truthy credential for each of the three keys, then keep
only the keys that ended up truthy. -/
def extractApiKeys (nodes : List Node) : ApiKeys :=
  let acc := nodes.foldl extractStep {}
  { llm := if acc.llm.truthy then some acc.llm else none
    knowledge := if acc.knowledge.truthy then some acc.knowledge else none
    websearch := if acc.websearch.truthy then some acc.websearch else none }

/-- `Object.keys(apiKeys).length > 0` on the filtered bundle. -/
def ApiKeys.nonempty (k : ApiKeys) : Bool :=
  k.llm.isSome ∨ k.knowledge.isSome ∨ k.websearch.isSome

/-- The canonical editing-session state owned by the zustand store. -/
structure StoreState where
  selectedWorkflowId : Option String := none
  nodes : List Node := []
  edges : List Edge := []
  workflowName : String := ""
  workflowDescription : String := ""
deriving DecidableEq, Repr

/-- `removeNode` of workflowStore.ts: drop the node with the given id and
every edge whose source or target equals that id, in one state update. -/
def removeNode (st : StoreState) (nodeId : String) : StoreState :=
  { st with
    nodes := st.nodes.filter (fun n => n.id ≠ nodeId)
    edges := st.edges.filter
      (fun e => e.source ≠ nodeId ∧ e.target ≠ nodeId) }

/-- `removeEdge` of workflowStore.ts. -/
def removeEdge (st : StoreState) (edgeId : String) : StoreState :=
  { st with edges := st.edges.filter (fun e => e.id ≠ edgeId) }

/-- `updateNodeConfig` of workflowStore.ts: shallow-merge the partial config
into the matching node's config, leaving every other node alone. -/
def updateNodeConfig (st : StoreState) (nodeId : String) (newConfig : Obj) :
    StoreState :=
  { st with
    nodes := st.nodes.map (fun n =>
      if n.id = nodeId then
        { n with data := { n.data with
            config := some (mergeObj (n.data.config.getD []) newConfig) } }
      else n) }

/-- `onConnect` of workflowStore.ts: derive the semantic edge name, build the
new smoothstep edge (its id embeds `Date.now()`, passed here as `now`), and
add it through reactflow's `addEdge`. -/
def onConnect (st : StoreState) (conn : Connection) (now : Nat) : StoreState :=
  let edgeName := determineEdgeName conn st.nodes
  let newEdge : Edge :=
    { id := "e" ++ conn.source ++ "-" ++ conn.target ++ "-" ++ toString now
      source := conn.source
      target := conn.target
      sourceHandle := conn.sourceHandle
      targetHandle := conn.targetHandle
      type := some "smoothstep"
      animated := some true
      style := some ⟨"#FF6B6B", 2⟩
      data := some [("name", .vStr edgeName)] }
  { st with edges := addEdge newEdge st.edges }

/-- The JSON body POSTed to `/api/workflow` by `saveWorkflow`
(`api_keys` is `null` when the filtered bundle is empty). -/
structure SavePayload where
  stack_id : String
  nodes : WireNodes
  edges : WireEdges
  api_keys : Option ApiKeys
deriving DecidableEq, Repr

/-- The JSON body POSTed to `/api/workflow/execute`. -/
structure ExecPayload where
  stack_id : String
  query : JVal
deriving DecidableEq, Repr

/-- A network request issued by the store, in issue order. -/
inductive Request where
  | save : SavePayload → Request
  | exec : ExecPayload → Request
  | load : String → Request
deriving DecidableEq, Repr

/-- Whether a request is an execute request. -/
def Request.isExec : Request → Bool
  | .exec _ => true
  | _ => false

/-- The parsed success body of the save endpoint. -/
structure SaveBody where
  stack_id : Option String := none
deriving DecidableEq, Repr

/-- The remote outcome of a fetch: parsed 2xx body, non-2xx status with body
text, or a transport error. -/
inductive FetchResp (β : Type) where
  | ok : β → FetchResp β
  | httpErr : Nat → String → FetchResp β
  | netErr : String → FetchResp β
deriving DecidableEq, Repr

/-- Result of running `saveWorkflow`: the state after the call, the returned
body or the thrown error message, and the requests issued. -/
structure SaveResult where
  state : StoreState
  result : Except String SaveBody
  requests : List Request
deriving Repr

/-- `saveWorkflow` of workflowStore.ts: fails fast without a network call when
no workflow id is bound; otherwise builds the wire payload (dictionaries plus
filtered secrets), sends it, throws on a non-2xx response or transport error,
and on success rebinds `selectedWorkflowId` when the remote returns a
different truthy `stack_id`. -/
def saveWorkflow (st : StoreState) (resp : FetchResp SaveBody) : SaveResult :=
  match strOrNull st.selectedWorkflowId with
  | none => ⟨st, .error "No workflow ID available", []⟩
  | some workflowId =>
    let apiKeys := extractApiKeys st.nodes
    let payload : SavePayload :=
      { stack_id := workflowId
        nodes := nodesToDict st.nodes
        edges := edgesToDict st.edges
        api_keys := if apiKeys.nonempty then some apiKeys else none }
    match resp with
    | .httpErr status body =>
      ⟨st, .error ("Failed to save workflow: " ++ toString status ++ " " ++ body),
        [.save payload]⟩
    | .netErr msg => ⟨st, .error msg, [.save payload]⟩
    | .ok result =>
      let st' :=
        match result.stack_id with
        | some sid =>
          if sid ≠ "" ∧ sid ≠ workflowId then
            { st with selectedWorkflowId := some sid }
          else st
        | none => st
      ⟨st', .ok result, [.save payload]⟩

/-- The parsed success body of the execute endpoint (only the `result` field
is read by the store; the other response fields are pass-through). -/
structure ExecBody where
  result : Option JVal := none
deriving DecidableEq, Repr

/-- The composite outcome object returned by `saveAndExecuteWorkflow`.  The
code never sets a `type` key on it, so that property reads as absent. -/
structure SEOutcome where
  success : Bool
  message : String
  error : Option String := none
  saveResult : Option SaveBody := none
  executeResult : Option ExecBody := none
  type : Option String := none
deriving DecidableEq, Repr

/-- Result of running `saveAndExecuteWorkflow`. -/
structure SEResult where
  state : StoreState
  outcome : SEOutcome
  requests : List Request
deriving Repr

/-- The failure object built in the catch block of `saveAndExecuteWorkflow`. -/
def seFailure (msg : String) : SEOutcome :=
  { success := false
    error := some msg
    message := "Failed to save and execute workflow: " ++ msg }

/-- `saveAndExecuteWorkflow` of workflowStore.ts: save first; any throw from
the save phase is caught and returned as a failure outcome without issuing
the execute request.  On save success the execute request is sent with the
workflow id captured before the save; a non-2xx execute response throws and
is caught the same way.  On a truthy execute `result` the first node of type
`outputNode` (looked up in the captured node list) gets
`updateNodeConfig(id, \x7boutput: result\x7d)`. -/
def saveAndExecuteWorkflow (st : StoreState) (userQuery : JVal)
    (saveResp : FetchResp SaveBody) (execResp : FetchResp ExecBody) :
    SEResult :=
  let s := saveWorkflow st saveResp
  match s.result with
  | .error e => ⟨s.state, seFailure e, s.requests⟩
  | .ok saveBody =>
    match strOrNull st.selectedWorkflowId with
    | none =>
      ⟨s.state, seFailure "No workflow ID available for execution", s.requests⟩
    | some workflowId =>
      let executePayload : ExecPayload :=
        { stack_id := workflowId, query := userQuery }
      let requests := s.requests ++ [.exec executePayload]
      match execResp with
      | .httpErr status body =>
        ⟨s.state,
          seFailure ("Failed to execute workflow: " ++ toString status ++ " " ++ body),
          requests⟩
      | .netErr msg => ⟨s.state, seFailure msg, requests⟩
      | .ok executeResult =>
        let st2 :=
          if ((executeResult.result).getD .vUndefined).truthy then
            match st.nodes.find? (fun n => n.type = some "outputNode") with
            | some outputNode =>
              updateNodeConfig s.state outputNode.id
                [("output", (executeResult.result).getD .vUndefined)]
            | none => s.state
          else s.state
        ⟨st2,
          { success := true
            saveResult := some saveBody
            executeResult := some executeResult
            message := "Workflow saved and executed successfully" },
          requests⟩

/-- The parsed success body of the load endpoint. -/
structure LoadBody where
  stack_id : Option String := none
  nodes : Option WireNodes := none
  edges : Option WireEdges := none
  name : Option String := none
  description : Option String := none
deriving DecidableEq, Repr

/-- Result of running `loadWorkflow`: the state after the call, the returned
boolean, and the requests issued. -/
structure LoadResult where
  state : StoreState
  returned : Bool
  requests : List Request
deriving Repr

/-- `loadWorkflow` of workflowStore.ts: a falsy, `"new"` or `temp_` id only
rebinds `selectedWorkflowId` and skips the network; a 404 response resets to
an empty graph bound to the requested id and returns true; any other non-2xx
response or transport error is caught and likewise resets to an empty graph
bound to the requested id, returning false; a success body is converted back
to editor shape. -/
def loadWorkflow (st : StoreState) (workflowId : String)
    (resp : FetchResp LoadBody) : LoadResult :=
  if workflowId = "" ∨ workflowId = "new" ∨ workflowId.startsWith "temp_" then
    ⟨{ st with selectedWorkflowId := some workflowId }, true, []⟩
  else
    let emptied : StoreState :=
      { st with
        selectedWorkflowId := some workflowId
        nodes := []
        edges := []
        workflowName := ""
        workflowDescription := "" }
    match resp with
    | .httpErr status _ =>
      if status = 404 then ⟨emptied, true, [.load workflowId]⟩
      else ⟨emptied, false, [.load workflowId]⟩
    | .netErr _ => ⟨emptied, false, [.load workflowId]⟩
    | .ok data =>
      ⟨{ st with
          selectedWorkflowId := strOr data.stack_id (some workflowId)
          nodes := dictToNodes data.nodes
          edges := dictToEdges data.edges
          workflowName := (strOrNull data.name).getD ""
          workflowDescription := (strOrNull data.description).getD "" },
        true, [.load workflowId]⟩

/-- The config object of a node with an absent config read as empty. -/
def Node.configD (n : Node) : Obj := n.data.config.getD []

/-- The validation block at the top of `handleRunWorkflow`
(WorkflowBuilderPage.jsx): each check throws its own message, so the first
failing check in order determines the error; on success the (truthy) user
query value is returned. -/
def validateRun (nodes : List Node) : Except String JVal :=
  match nodes.find? (fun n => n.type = some "userQueryNode") with
  | none => .error "Please add a User Query node to your workflow"
  | some userQueryNode =>
    let q := objGet userQueryNode.configD "query"
    let userQuery := if q.truthy then q else .vStr ""
    if ¬ userQuery.truthy ∨ userQuery = .vStr "Write your query here" then
      .error "Please enter a query in the User Query node"
    else
      match nodes.find? (fun n => n.type = some "outputNode") with
      | none => .error "Please add an Output node to your workflow"
      | some _ =>
        match nodes.find? (fun n => n.type = some "llmNode") with
        | none => .error "Please add an LLM node to your workflow"
        | some llmNode =>
          if ¬ (objGet llmNode.configD "apiKey").truthy then
            .error "Please configure an API key in your LLM node"
          else .ok userQuery

/-- The `executionResult` object set by `handleRunWorkflow`; both its branches
tag it with `type: 'execute'`. -/
structure RunOutcome where
  success : Bool
  message : String
  type : Option String := some "execute"
  saveResult : Option SaveBody := none
  executeResult : Option ExecBody := none
  error : Option String := none
deriving DecidableEq, Repr

/-- Result of running `handleRunWorkflow`. -/
structure RunResult where
  state : StoreState
  outcome : RunOutcome
  requests : List Request
deriving Repr

/-- `handleRunWorkflow` of WorkflowBuilderPage.jsx: validate the graph first;
a validation throw is caught locally and reported without any network
request; otherwise delegate to `saveAndExecuteWorkflow` and report its
composite outcome. -/
def handleRunWorkflow (st : StoreState) (saveResp : FetchResp SaveBody)
    (execResp : FetchResp ExecBody) : RunResult :=
  match validateRun st.nodes with
  | .error msg =>
    ⟨st, { success := false, message := msg, error := some msg }, []⟩
  | .ok userQuery =>
    let r := saveAndExecuteWorkflow st userQuery saveResp execResp
    ⟨r.state,
      { success := r.outcome.success
        message := r.outcome.message
        saveResult := r.outcome.saveResult
        executeResult := r.outcome.executeResult
        error := r.outcome.error },
      r.requests⟩

/-- A wire node is well formed when it carries a non-empty service type whose
backend-to-frontend translation round-trips, the same tag inside `data`, a
position, and a config from which the transient `uploadedFile` field was
stripped and whose values are JSON-representable. -/
def WNode.wf (w : WNode) : Bool :=
  match w.type, w.data.type, w.position, w.data.config with
  | some t, some dt, some _, some c =>
    decide (t ≠ "" ∧ dt = t ∧ convertNodeType (convertBackendNodeType t) = t) &&
    (alookup c "uploadedFile").isNone &&
    c.all (fun kv => decide (kv.2 ≠ JVal.vUndefined ∧ kv.2 ≠ JVal.vFile))
  | _, _, _, _ => false

/-- A wire edge is well formed when its type is a non-empty string, its
handles are null or non-empty strings, and its data values are
JSON-representable. -/
def WEdge.wf (w : WEdge) : Bool :=
  decide (w.type ≠ "" ∧ w.sourceHandle ≠ some "" ∧ w.targetHandle ≠ some "") &&
  w.data.all (fun kv => decide (kv.2 ≠ JVal.vUndefined ∧ kv.2 ≠ JVal.vFile))

/-- A well-formed wire node map: keys are distinct, each key is its node's id,
and each node is well formed. -/
def wellFormedWireNodes (d : WireNodes) : Prop :=
  (d.map Prod.fst).Nodup ∧ ∀ kv ∈ d, kv.1 = kv.2.id ∧ kv.2.wf = true

/-- A well-formed wire edge map: keys are distinct, each key is its edge's id,
and each edge is well formed. -/
def wellFormedWireEdges (d : WireEdges) : Prop :=
  (d.map Prod.fst).Nodup ∧ ∀ kv ∈ d, kv.1 = kv.2.id ∧ kv.2.wf = true

instance : DecidablePred wellFormedWireNodes := fun d => by
  unfold wellFormedWireNodes; infer_instance

instance : DecidablePred wellFormedWireEdges := fun d => by
  unfold wellFormedWireEdges; infer_instance

lemma alookup_append {β : Type} (a b : List (String × β)) (k : String) :
    alookup (a ++ b) k =
      match alookup a k with
      | some v => some v
      | none => alookup b k := by
  induction a with
  | nil => simp [alookup]
  | cons hd tl ih =>
    by_cases h : hd.1 = k <;> simp [alookup, h, ih]

lemma alookup_merge_map (a b : Obj) (k : String) :
    alookup (a.map (fun kv =>
      match alookup b kv.1 with
      | some v => (kv.1, v)
      | none => kv)) k =
      match alookup a k with
      | some v =>
        match alookup b k with
        | some w => some w
        | none => some v
      | none => none := by
  induction a with
  | nil => simp [alookup]
  | cons hd tl ih =>
    obtain ⟨k₁, v₁⟩ := hd
    by_cases h : k₁ = k
    · subst h
      cases hb : alookup b k₁ <;> simp [alookup, hb]
    · cases hb : alookup b k₁ <;> simp [alookup, h, hb, ih]

lemma alookup_merge_filter (a b : Obj) (k : String) :
    alookup (b.filter (fun kv => (alookup a kv.1).isNone)) k =
      if (alookup a k).isNone then alookup b k else none := by
  induction b with
  | nil => simp [alookup]
  | cons hd tl ih =>
    obtain ⟨k₁, v₁⟩ := hd
    by_cases h : k₁ = k
    · subst h
      cases ha : alookup a k₁ <;> simp [alookup, List.filter, ha, ih]
    · cases hp : (alookup a k₁).isNone <;>
        simp [alookup, List.filter, hp, h, ih]

/-- Key lookup after a JS spread `\x7b...a, ...b\x7d`: a key of `b` wins,
otherwise the key of `a` survives. -/
lemma alookup_mergeObj (a b : Obj) (k : String) :
    alookup (mergeObj a b) k =
      match alookup b k with
      | some w => some w
      | none => alookup a k := by
  unfold mergeObj
  rw [alookup_append, alookup_merge_map, alookup_merge_filter]
  cases ha : alookup a k <;> cases hb : alookup b k <;> simp [ha, hb]

lemma mergeObj_lookup_of_none (a b : Obj) (k : String)
    (h : alookup b k = none) : alookup (mergeObj a b) k = alookup a k := by
  rw [alookup_mergeObj, h]

lemma mergeObj_lookup_of_some (a b : Obj) (k : String) (v : JVal)
    (h : alookup b k = some v) : alookup (mergeObj a b) k = some v := by
  rw [alookup_mergeObj, h]

lemma objSet_of_absent {β : Type} (o : List (String × β)) (k : String) (v : β)
    (h : alookup o k = none) : objSet o k v = o ++ [(k, v)] := by
  simp [objSet, h]

lemma stripUndefined_objSet (c : Obj)
    (h1 : alookup c "uploadedFile" = none)
    (h2 : ∀ kv ∈ c, kv.2 ≠ JVal.vUndefined) :
    stripUndefined (objSet c "uploadedFile" JVal.vUndefined) = c := by
  rw [objSet_of_absent _ _ _ h1]
  unfold stripUndefined
  rw [List.filter_append]
  have h2' : ∀ (a : String) (b : JVal), (a, b) ∈ c → ¬b = JVal.vUndefined :=
    fun a b hab => h2 (a, b) hab
  simp [List.filter, List.filter_eq_self]
  exact h2'

/-- Building a dictionary by repeated JS assignment from entries with distinct
fresh keys appends them in order. -/
lemma foldl_dictInsert_eq_map {γ β : Type} (key : γ → String) (val : γ → β) :
    ∀ (l : List γ) (acc : List (String × β)),
      (∀ x ∈ l, alookup acc (key x) = none) → (l.map key).Nodup →
      l.foldl (fun d x => dictInsert d (key x) (val x)) acc =
        acc ++ l.map (fun x => (key x, val x)) := by
  intro l
  induction l with
  | nil => intro acc _ _; simp
  | cons hd tl ih =>
    intro acc hacc hnd
    have hfresh : alookup acc (key hd) = none := hacc hd (by simp)
    have hstep : dictInsert acc (key hd) (val hd) = acc ++ [(key hd, val hd)] :=
      objSet_of_absent _ _ _ hfresh
    rw [List.map_cons] at hnd
    obtain ⟨hhd, hnd'⟩ := List.nodup_cons.mp hnd
    have hne : ∀ x ∈ tl, key x ≠ key hd := by
      intro x hx hcon
      exact hhd (hcon ▸ List.mem_map_of_mem key hx)
    have hacc' : ∀ x ∈ tl,
        alookup (acc ++ [(key hd, val hd)]) (key x) = none := by
      intro x hx
      rw [alookup_append, hacc x (by simp [hx])]
      simp [alookup, Ne.symm (hne x hx)]
    simp only [List.foldl_cons, hstep]
    rw [ih _ hacc' hnd']
    simp

lemma convertBackendNodeType_ne_empty (t : String) (h : t ≠ "") :
    convertBackendNodeType t ≠ "" := by
  unfold convertBackendNodeType
  split_ifs <;> simp_all

/-- One well-formed wire node survives the load/save round trip once the
serialized (transmitted) form is taken. -/
lemma roundtrip_node (w : WNode) (h : w.wf = true) :
    serializeWNode (wireOfNode (nodeOfWire w)) = w := by
  obtain ⟨id, ty, pos, da⟩ := w
  obtain ⟨dty, nm, lb, cfg⟩ := da
  cases ty with
  | none => simp [WNode.wf] at h
  | some t =>
  cases dty with
  | none => simp [WNode.wf] at h
  | some dt =>
  cases pos with
  | none => simp [WNode.wf] at h
  | some p =>
  cases cfg with
  | none => simp [WNode.wf] at h
  | some c =>
  simp only [WNode.wf, Bool.and_eq_true, decide_eq_true_eq, List.all_eq_true,
    Option.isNone_iff_eq_none] at h
  obtain ⟨⟨⟨hne, hdt, hrt⟩, hup⟩, hjson⟩ := h
  subst hdt
  have hcb : convertBackendNodeType dt ≠ "" :=
    convertBackendNodeType_ne_empty dt hne
  have hundef : ∀ kv ∈ c, kv.2 ≠ JVal.vUndefined := fun kv hkv => (hjson kv hkv).1
  simp [nodeOfWire, wireOfNode, serializeWNode, strOr, hne, hcb,
    convertNodeTypeO, convertBackendNodeTypeO, hrt,
    stripUndefined_objSet c hup hundef]

/-- One well-formed wire edge survives the load/save round trip. -/
lemma roundtrip_edge (w : WEdge) (h : w.wf = true) :
    wireOfEdge (edgeOfWire w) = w := by
  obtain ⟨id, src, tgt, sh, th, ty, da⟩ := w
  simp only [WEdge.wf, Bool.and_eq_true, decide_eq_true_eq] at h
  obtain ⟨⟨hty, hsh, hth⟩, -⟩ := h
  have hshh : strOrNull sh = sh := by
    cases sh with
    | none => rfl
    | some s =>
      have : s ≠ "" := by intro hs; exact hsh (by simp [hs])
      simp [strOrNull, strOr, this]
  have hthh : strOrNull th = th := by
    cases th with
    | none => rfl
    | some s =>
      have : s ≠ "" := by intro hs; exact hth (by simp [hs])
      simp [strOrNull, strOr, this]
  simp [edgeOfWire, wireOfEdge, strOr, hty, hshh, hthh]

/-- C4: for every well-formed wire graph (id-keyed node map and id-keyed edge
map), converting it to the editable shape with `dictToNodes`/`dictToEdges`
and back with `nodesToDict`/`edgesToDict` is the identity on the transmitted
(JSON-serialized) form; in particular an explicit, non-default edge `type` is
preserved by the round trip. -/
theorem c4_wire_roundtrip (wn : WireNodes) (we : WireEdges)
    (hn : wellFormedWireNodes wn) (he : wellFormedWireEdges we) :
    serializeWireNodes (nodesToDict (dictToNodes (some wn))) = wn ∧
    edgesToDict (dictToEdges (some we)) = we := by
  constructor
  · show serializeWireNodes
      (nodesToDict (wn.map (fun kv => nodeOfWire kv.2))) = wn
    have hkeys : wn.map (fun kv => kv.2.id) = wn.map Prod.fst :=
      List.map_congr_left (fun kv hkv => ((hn.2 kv hkv).1).symm)
    have hcomp : (Node.id ∘ fun kv : String × WNode => nodeOfWire kv.2) =
        fun kv : String × WNode => kv.2.id := rfl
    have hnodup : ((wn.map (fun kv => nodeOfWire kv.2)).map Node.id).Nodup := by
      rw [List.map_map, hcomp, hkeys]
      exact hn.1
    unfold nodesToDict
    rw [foldl_dictInsert_eq_map Node.id wireOfNode _ []
      (fun x _ => rfl) hnodup]
    rw [List.nil_append, List.map_map]
    unfold serializeWireNodes
    rw [List.map_map]
    have hpt : ∀ kv ∈ wn,
        ((fun kv : String × WNode => (kv.1, serializeWNode kv.2)) ∘
          (fun n : Node => (n.id, wireOfNode n)) ∘
          fun kv : String × WNode => nodeOfWire kv.2) kv = id kv := by
      intro kv hkv
      obtain ⟨hkey, hwf⟩ := hn.2 kv hkv
      show ((nodeOfWire kv.2).id,
        serializeWNode (wireOfNode (nodeOfWire kv.2))) = kv
      rw [roundtrip_node kv.2 hwf]
      show (kv.2.id, kv.2) = kv
      rw [← hkey]
    rw [List.map_congr_left hpt, List.map_id]
  · show edgesToDict (we.map (fun kv => edgeOfWire kv.2)) = we
    have hkeys : we.map (fun kv => kv.2.id) = we.map Prod.fst :=
      List.map_congr_left (fun kv hkv => ((he.2 kv hkv).1).symm)
    have hcomp : (Edge.id ∘ fun kv : String × WEdge => edgeOfWire kv.2) =
        fun kv : String × WEdge => kv.2.id := rfl
    have hnodup : ((we.map (fun kv => edgeOfWire kv.2)).map Edge.id).Nodup := by
      rw [List.map_map, hcomp, hkeys]
      exact he.1
    unfold edgesToDict
    rw [foldl_dictInsert_eq_map Edge.id wireOfEdge _ []
      (fun x _ => rfl) hnodup]
    rw [List.nil_append, List.map_map]
    have hpt : ∀ kv ∈ we,
        ((fun e : Edge => (e.id, wireOfEdge e)) ∘
          fun kv : String × WEdge => edgeOfWire kv.2) kv = id kv := by
      intro kv hkv
      obtain ⟨hkey, hwf⟩ := he.2 kv hkv
      show ((edgeOfWire kv.2).id, wireOfEdge (edgeOfWire kv.2)) = kv
      rw [roundtrip_edge kv.2 hwf]
      show (kv.2.id, kv.2) = kv
      rw [← hkey]
    rw [List.map_congr_left hpt, List.map_id]

/-- A concrete well-formed wire node map: one user-query node. -/
def exWireNodes : WireNodes :=
  [("n1",
    { id := "n1"
      type := some "userQuery"
      position := some ⟨100, 200⟩
      data :=
        { type := some "userQuery"
          name := some "UserQuery"
          config := some [("query", JVal.vStr "hello")] } })]

/-- A concrete well-formed wire edge map whose edge has the explicit,
non-default type "straight". -/
def exWireEdges : WireEdges :=
  [("e1",
    { id := "e1"
      source := "n1"
      target := "n2"
      sourceHandle := none
      targetHandle := some "query-input"
      type := "straight"
      data := [("name", JVal.vStr "Query")] })]

/-- Witness for C4: the round trip evaluated on a concrete well-formed wire
graph with a non-default edge type. -/
theorem c4_wire_roundtrip_witness :
    wellFormedWireNodes exWireNodes ∧ wellFormedWireEdges exWireEdges ∧
    (serializeWireNodes (nodesToDict (dictToNodes (some exWireNodes))) =
        exWireNodes ∧
      edgesToDict (dictToEdges (some exWireEdges)) = exWireEdges) :=
  ⟨by decide, by decide, c4_wire_roundtrip exWireNodes exWireEdges
    (by decide) (by decide)⟩

lemma get_map_fin {α β : Type} (f : α → β) (l : List α) (i : Fin l.length)
    (j : Fin (l.map f).length) (hij : (i : Nat) = (j : Nat)) :
    (l.map f).get j = f (l.get i) := by
  simp only [List.get_eq_getElem, List.getElem_map]
  congr 1
  simp only [show (j : Nat) = (i : Nat) from hij.symm]

lemma length_filter_boolnot {α : Type} (l : List α) (p q : α → Bool)
    (hpq : ∀ a, p a = ! q a) :
    (l.filter p).length + l.countP q = l.length := by
  induction l with
  | nil => simp
  | cons hd tl ih =>
    cases hq : q hd <;>
      simp [List.filter_cons, List.countP_cons, hpq, hq] <;> omega

/-- C5: `removeNode` removes the node with the given id (a no-op on the node
list when the id is absent) and every edge touching that id, in one state
update; afterwards no edge references the id, untouched nodes and edges
survive, and when the id occurs once among the nodes and exactly two edges
touch it, the node count drops by one and the edge count by two. -/
theorem c5_removeNode (st : StoreState) (nodeId : String) :
    (∀ n ∈ (removeNode st nodeId).nodes, n.id ≠ nodeId) ∧
    (∀ n ∈ st.nodes, n.id ≠ nodeId → n ∈ (removeNode st nodeId).nodes) ∧
    (∀ e ∈ (removeNode st nodeId).edges,
      e.source ≠ nodeId ∧ e.target ≠ nodeId) ∧
    (∀ e ∈ st.edges, e.source ≠ nodeId → e.target ≠ nodeId →
      e ∈ (removeNode st nodeId).edges) ∧
    ((∀ n ∈ st.nodes, n.id ≠ nodeId) →
      (removeNode st nodeId).nodes = st.nodes) ∧
    (st.nodes.countP (fun n => n.id = nodeId) = 1 →
      (removeNode st nodeId).nodes.length + 1 = st.nodes.length) ∧
    (st.edges.countP (fun e => e.source = nodeId ∨ e.target = nodeId) = 2 →
      (removeNode st nodeId).edges.length + 2 = st.edges.length) := by
  refine ⟨?_, ?_, ?_, ?_, ?_, ?_, ?_⟩
  · intro n hn
    simp only [removeNode, List.mem_filter, decide_eq_true_eq] at hn
    exact hn.2
  · intro n hn hne
    simp only [removeNode, List.mem_filter, decide_eq_true_eq]
    exact ⟨hn, hne⟩
  · intro e he
    simp only [removeNode, List.mem_filter, decide_eq_true_eq] at he
    exact he.2
  · intro e he h1 h2
    simp only [removeNode, List.mem_filter, decide_eq_true_eq]
    exact ⟨he, h1, h2⟩
  · intro hall
    simp only [removeNode]
    exact List.filter_eq_self.mpr fun n hn => by simpa using hall n hn
  · intro hcount
    have := length_filter_boolnot st.nodes
      (fun n => decide (n.id ≠ nodeId)) (fun n => decide (n.id = nodeId))
      (fun n => by by_cases h : n.id = nodeId <;> simp [h])
    simp only [removeNode]
    omega
  · intro hcount
    have := length_filter_boolnot st.edges
      (fun e => decide (e.source ≠ nodeId ∧ e.target ≠ nodeId))
      (fun e => decide (e.source = nodeId ∨ e.target = nodeId))
      (fun e => by
        by_cases h1 : e.source = nodeId <;> by_cases h2 : e.target = nodeId <;>
          simp [h1, h2])
    simp only [removeNode]
    omega

/-- A concrete three-node state: a user-query, an llm and an output node,
with two edges connected to the llm node. -/
def exState : StoreState :=
  { selectedWorkflowId := some "wf1"
    nodes :=
      [{ id := "uq1", type := some "userQueryNode"
         data := { type := some "userQueryNode"
                   config := some [("query", JVal.vStr "What is RAG?")] } },
       { id := "llm1", type := some "llmNode"
         data := { type := some "llmNode"
                   config := some [("model", JVal.vStr "GPT-4o-Mini"),
                                   ("apiKey", JVal.vStr "sk-1")] } },
       { id := "out1", type := some "outputNode"
         data := { type := some "outputNode"
                   config := some
                     [("output",
                       JVal.vStr "Workflow output will appear here.")] } }]
    edges :=
      [{ id := "e1", source := "uq1", target := "llm1",
         targetHandle := some "query-input" },
       { id := "e2", source := "llm1", target := "out1",
         sourceHandle := some "llm-output" }] }

/-- Witness for C5: removing the llm node of the concrete state, which has
exactly two connected edges, drops one node and both edges. -/
theorem c5_removeNode_witness :
    ((∀ n ∈ (removeNode exState "llm1").nodes, n.id ≠ "llm1") ∧
      (∀ n ∈ exState.nodes, n.id ≠ "llm1" →
        n ∈ (removeNode exState "llm1").nodes) ∧
      (∀ e ∈ (removeNode exState "llm1").edges,
        e.source ≠ "llm1" ∧ e.target ≠ "llm1") ∧
      (∀ e ∈ exState.edges, e.source ≠ "llm1" → e.target ≠ "llm1" →
        e ∈ (removeNode exState "llm1").edges) ∧
      ((∀ n ∈ exState.nodes, n.id ≠ "llm1") →
        (removeNode exState "llm1").nodes = exState.nodes) ∧
      (exState.nodes.countP (fun n => n.id = "llm1") = 1 →
        (removeNode exState "llm1").nodes.length + 1 =
          exState.nodes.length) ∧
      (exState.edges.countP
          (fun e => e.source = "llm1" ∨ e.target = "llm1") = 2 →
        (removeNode exState "llm1").edges.length + 2 =
          exState.edges.length)) ∧
    exState.nodes.countP (fun n => n.id = "llm1") = 1 ∧
    exState.edges.countP
      (fun e => e.source = "llm1" ∨ e.target = "llm1") = 2 ∧
    (removeNode exState "llm1").nodes.length = 2 ∧
    (removeNode exState "llm1").edges.length = 0 :=
  ⟨c5_removeNode exState "llm1", by decide, by decide, by decide, by decide⟩

/-- C9: `updateNodeConfig` shallow-merges the partial config into the node
with the given id: the edge set and the node count are untouched, a node with
a different id is unchanged, the targeted node keeps its identity and every
config key not mentioned in the partial config, takes the partial config's
value on mentioned keys, and the whole call is a no-op when no node has the
id. -/
theorem c9_updateNodeConfig (st : StoreState) (nodeId : String)
    (newConfig : Obj) :
    (updateNodeConfig st nodeId newConfig).edges = st.edges ∧
    (updateNodeConfig st nodeId newConfig).nodes.length = st.nodes.length ∧
    (∀ i : Fin st.nodes.length,
      ∀ j : Fin (updateNodeConfig st nodeId newConfig).nodes.length,
      (i : Nat) = (j : Nat) →
      ((st.nodes.get i).id ≠ nodeId →
        (updateNodeConfig st nodeId newConfig).nodes.get j =
          st.nodes.get i) ∧
      ((st.nodes.get i).id = nodeId →
        ((updateNodeConfig st nodeId newConfig).nodes.get j).id =
            (st.nodes.get i).id ∧
          ((updateNodeConfig st nodeId newConfig).nodes.get j).type =
            (st.nodes.get i).type ∧
          ((updateNodeConfig st nodeId newConfig).nodes.get j).position =
            (st.nodes.get i).position ∧
          (∀ k, alookup newConfig k = none →
            alookup ((updateNodeConfig st nodeId newConfig).nodes.get j).configD
                k = alookup (st.nodes.get i).configD k) ∧
          (∀ k v, alookup newConfig k = some v →
            alookup ((updateNodeConfig st nodeId newConfig).nodes.get j).configD
                k = some v))) ∧
    ((∀ n ∈ st.nodes, n.id ≠ nodeId) →
      updateNodeConfig st nodeId newConfig = st) := by
  refine ⟨rfl, by simp [updateNodeConfig], ?_, ?_⟩
  · intro i j hij
    have hget : (updateNodeConfig st nodeId newConfig).nodes.get j =
        (fun n : Node =>
          if n.id = nodeId then
            { n with data := { n.data with
                config := some (mergeObj (n.data.config.getD []) newConfig) } }
          else n) (st.nodes.get i) :=
      get_map_fin _ st.nodes i j hij
    constructor
    · intro hne
      rw [hget]
      exact if_neg hne
    · intro heq
      rw [hget]
      simp only [heq, if_pos rfl]
      refine ⟨rfl, rfl, rfl, ?_, ?_⟩
      · intro k hk
        simp only [Node.configD, Option.getD_some]
        exact mergeObj_lookup_of_none _ _ _ hk
      · intro k v hk
        simp only [Node.configD, Option.getD_some]
        exact mergeObj_lookup_of_some _ _ _ _ hk
  · intro hall
    have hmap : st.nodes.map (fun n : Node =>
        if n.id = nodeId then
          { n with data := { n.data with
              config := some (mergeObj (n.data.config.getD []) newConfig) } }
        else n) = st.nodes := by
      have h1 := List.map_congr_left
        (f := fun n : Node =>
          if n.id = nodeId then
            { n with data := { n.data with
                config := some (mergeObj (n.data.config.getD []) newConfig) } }
          else n)
        (g := id) (l := st.nodes)
        (fun n hn => by simp [hall n hn])
      simpa using h1
    simp only [updateNodeConfig, hmap]

/-- Witness for C9: updating the llm node's temperature in the concrete state
keeps its apiKey, leaves the query node alone and keeps the edges. -/
theorem c9_updateNodeConfig_witness :
    (updateNodeConfig exState "llm1"
        [("temperature", JVal.vStr "0.2")]).edges = exState.edges ∧
    (updateNodeConfig exState "llm1"
        [("temperature", JVal.vStr "0.2")]).nodes.length =
      exState.nodes.length ∧
    (∀ i : Fin exState.nodes.length,
      ∀ j : Fin (updateNodeConfig exState "llm1"
        [("temperature", JVal.vStr "0.2")]).nodes.length,
      (i : Nat) = (j : Nat) →
      ((exState.nodes.get i).id ≠ "llm1" →
        (updateNodeConfig exState "llm1"
            [("temperature", JVal.vStr "0.2")]).nodes.get j =
          exState.nodes.get i) ∧
      ((exState.nodes.get i).id = "llm1" →
        ((updateNodeConfig exState "llm1"
              [("temperature", JVal.vStr "0.2")]).nodes.get j).id =
            (exState.nodes.get i).id ∧
          ((updateNodeConfig exState "llm1"
              [("temperature", JVal.vStr "0.2")]).nodes.get j).type =
            (exState.nodes.get i).type ∧
          ((updateNodeConfig exState "llm1"
              [("temperature", JVal.vStr "0.2")]).nodes.get j).position =
            (exState.nodes.get i).position ∧
          (∀ k, alookup [("temperature", JVal.vStr "0.2")] k = none →
            alookup ((updateNodeConfig exState "llm1"
                [("temperature", JVal.vStr "0.2")]).nodes.get j).configD k =
              alookup (exState.nodes.get i).configD k) ∧
          (∀ k v, alookup [("temperature", JVal.vStr "0.2")] k = some v →
            alookup ((updateNodeConfig exState "llm1"
                [("temperature", JVal.vStr "0.2")]).nodes.get j).configD k =
              some v))) ∧
    ((∀ n ∈ exState.nodes, n.id ≠ "llm1") →
      updateNodeConfig exState "llm1"
        [("temperature", JVal.vStr "0.2")] = exState) :=
  c9_updateNodeConfig exState "llm1" [("temperature", JVal.vStr "0.2")]

/-- Whether a node contributes an llm credential in `extractApiKeys`:
it is (tagged as) an llm node with a truthy `apiKey`. -/
def llmContrib (n : Node) : Bool :=
  match n.data.config with
  | some config => nodeIsType n "llmNode" && (objGet config "apiKey").truthy
  | none => false

/-- Whether a node contributes a knowledge credential in `extractApiKeys`. -/
def kbContrib (n : Node) : Bool :=
  match n.data.config with
  | some config =>
    nodeIsType n "knowledgeBaseNode" && (objGet config "apiKey").truthy
  | none => false

/-- Whether a node contributes a websearch credential in `extractApiKeys`:
an llm or websearch node with a truthy `serpApiKey`. -/
def wsContrib (n : Node) : Bool :=
  match n.data.config with
  | some config =>
    (nodeIsType n "llmNode" && (objGet config "serpApiKey").truthy) ||
    (nodeIsType n "webSearchNode" && (objGet config "serpApiKey").truthy)
  | none => false

lemma extractStep_llm (a : ApiKeysAcc) (n : Node) :
    (extractStep a n).llm =
      if llmContrib n then objGet n.configD "apiKey" else a.llm := by
  cases hc : n.data.config with
  | none => simp [extractStep, llmContrib, hc]
  | some config =>
    simp only [extractStep, llmContrib, Node.configD, hc, Option.getD_some,
      Bool.and_eq_true]
    by_cases h1 : nodeIsType n "llmNode" = true ∧
        (objGet config "apiKey").truthy = true <;>
      simp [h1, apply_ite ApiKeysAcc.llm]

lemma extractStep_knowledge (a : ApiKeysAcc) (n : Node) :
    (extractStep a n).knowledge =
      if kbContrib n then objGet n.configD "apiKey" else a.knowledge := by
  cases hc : n.data.config with
  | none => simp [extractStep, kbContrib, hc]
  | some config =>
    simp only [extractStep, kbContrib, Node.configD, hc, Option.getD_some,
      Bool.and_eq_true]
    by_cases h2 : nodeIsType n "knowledgeBaseNode" = true ∧
        (objGet config "apiKey").truthy = true <;>
      simp [h2, apply_ite ApiKeysAcc.knowledge]

lemma extractStep_websearch (a : ApiKeysAcc) (n : Node) :
    (extractStep a n).websearch =
      if wsContrib n then objGet n.configD "serpApiKey" else a.websearch := by
  cases hc : n.data.config with
  | none => simp [extractStep, wsContrib, hc]
  | some config =>
    simp only [extractStep, wsContrib, Node.configD, hc, Option.getD_some,
      Bool.and_eq_true, Bool.or_eq_true]
    by_cases h3 : (nodeIsType n "llmNode" = true ∧
          (objGet config "serpApiKey").truthy = true) ∨
        (nodeIsType n "webSearchNode" = true ∧
          (objGet config "serpApiKey").truthy = true) <;>
      simp [h3, apply_ite ApiKeysAcc.websearch]

lemma extract_fold_const (proj : ApiKeysAcc → JVal) (contrib : Node → Bool)
    (cred : Node → JVal)
    (hstep : ∀ a n, proj (extractStep a n) =
      if contrib n then cred n else proj a) :
    ∀ (ns : List Node) (a : ApiKeysAcc), (∀ n ∈ ns, contrib n = false) →
      proj (ns.foldl extractStep a) = proj a := by
  intro ns
  induction ns with
  | nil => intro a _; rfl
  | cons hd tl ih =>
    intro a hall
    rw [List.foldl_cons, ih _ (fun n hn => hall n (by simp [hn]))]
    rw [hstep, hall hd (by simp)]
    simp

lemma extract_fold_last (proj : ApiKeysAcc → JVal) (contrib : Node → Bool)
    (cred : Node → JVal)
    (hstep : ∀ a n, proj (extractStep a n) =
      if contrib n then cred n else proj a)
    (pre post : List Node) (n : Node) (a : ApiKeysAcc)
    (hc : contrib n = true) (hpost : ∀ m ∈ post, contrib m = false) :
    proj ((pre ++ n :: post).foldl extractStep a) = cred n := by
  rw [List.foldl_append, List.foldl_cons,
    extract_fold_const proj contrib cred hstep post _ hpost, hstep]
  simp [hc]

lemma extract_fold_mem (proj : ApiKeysAcc → JVal) (contrib : Node → Bool)
    (cred : Node → JVal)
    (hstep : ∀ a n, proj (extractStep a n) =
      if contrib n then cred n else proj a) :
    ∀ (ns : List Node) (a : ApiKeysAcc),
      proj (ns.foldl extractStep a) = proj a ∨
      ∃ n ∈ ns, contrib n = true ∧ proj (ns.foldl extractStep a) = cred n := by
  intro ns
  induction ns with
  | nil => intro a; left; rfl
  | cons hd tl ih =>
    intro a
    rcases ih (extractStep a hd) with h | ⟨n, hn, hcn, hval⟩
    · rw [List.foldl_cons] at *
      by_cases hc : contrib hd = true
      · right
        exact ⟨hd, by simp, hc, by rw [h, hstep, if_pos hc]⟩
      · left
        rw [h, hstep, if_neg hc]
    · right
      exact ⟨n, by simp [hn], hcn, by rw [List.foldl_cons]; exact hval⟩

lemma alookup_mem {β : Type} (l : List (String × β)) (k : String) (v : β)
    (h : alookup l k = some v) : (k, v) ∈ l := by
  induction l with
  | nil => simp [alookup] at h
  | cons hd tl ih =>
    by_cases hk : hd.1 = k
    · simp only [alookup, if_pos hk] at h
      have hhd : hd = (k, v) := by
        obtain ⟨k1, v1⟩ := hd
        simp only at hk h
        simp [hk, Option.some_inj.mp h]
      rw [hhd]
      exact List.mem_cons_self _ _
    · simp only [alookup, if_neg hk] at h
      exact List.mem_cons_of_mem _ (ih h)

/-- Whether a JS value is a string. -/
def JVal.isStr : JVal → Bool
  | JVal.vStr _ => true
  | _ => false

/-- The credential fields (`apiKey`, `serpApiKey`) of every node's config
hold strings when present (the repository's node editors only ever store
text-input values there); every other config field — such as the boolean
`webSearchEnabled` or the null/file `uploadedFile` of the default configs —
is unconstrained. -/
def credentialStrings (nodes : List Node) : Bool :=
  nodes.all fun n => n.configD.all fun kv =>
    if kv.1 = "apiKey" ∨ kv.1 = "serpApiKey" then kv.2.isStr else true

lemma truthy_objGet_mem (c : Obj) (k : String)
    (h : (objGet c k).truthy = true) : (k, objGet c k) ∈ c := by
  cases hl : alookup c k with
  | none => simp [objGet, hl, JVal.truthy] at h
  | some v =>
    have : objGet c k = v := by simp [objGet, hl]
    rw [this]
    exact alookup_mem c k v hl

lemma credentialStrings_cred (nodes : List Node)
    (hs : credentialStrings nodes = true) (n : Node) (hn : n ∈ nodes)
    (k : String) (hk : k = "apiKey" ∨ k = "serpApiKey")
    (ht : (objGet n.configD k).truthy = true) :
    ∃ s, s ≠ "" ∧ objGet n.configD k = JVal.vStr s := by
  have hmem := truthy_objGet_mem n.configD k ht
  have hall : (if k = "apiKey" ∨ k = "serpApiKey" then
      (objGet n.configD k).isStr else true) = true :=
    (List.all_eq_true.mp ((List.all_eq_true.mp hs) n hn))
      (k, objGet n.configD k) hmem
  rw [if_pos hk] at hall
  cases hv : objGet n.configD k with
  | vStr s =>
    refine ⟨s, ?_, rfl⟩
    rw [hv] at ht
    simpa [JVal.truthy] using ht
  | vBool b => rw [hv] at hall; simp [JVal.isStr] at hall
  | vNum m => rw [hv] at hall; simp [JVal.isStr] at hall
  | vNull => rw [hv] at hall; simp [JVal.isStr] at hall
  | vUndefined => rw [hv] at hall; simp [JVal.isStr] at hall
  | vFile => rw [hv] at hall; simp [JVal.isStr] at hall

lemma llmContrib_truthy (n : Node) (h : llmContrib n = true) :
    (objGet n.configD "apiKey").truthy = true := by
  unfold llmContrib at h
  cases hc : n.data.config with
  | none => rw [hc] at h; simp at h
  | some config =>
    rw [hc] at h
    simp only [Bool.and_eq_true] at h
    simpa [Node.configD, hc] using h.2

lemma kbContrib_truthy (n : Node) (h : kbContrib n = true) :
    (objGet n.configD "apiKey").truthy = true := by
  unfold kbContrib at h
  cases hc : n.data.config with
  | none => rw [hc] at h; simp at h
  | some config =>
    rw [hc] at h
    simp only [Bool.and_eq_true] at h
    simpa [Node.configD, hc] using h.2

lemma wsContrib_truthy (n : Node) (h : wsContrib n = true) :
    (objGet n.configD "serpApiKey").truthy = true := by
  unfold wsContrib at h
  cases hc : n.data.config with
  | none => rw [hc] at h; simp at h
  | some config =>
    rw [hc] at h
    simp only [Bool.or_eq_true, Bool.and_eq_true] at h
    rcases h with h | h <;> simpa [Node.configD, hc] using h.2

/-- C6: on a node list whose credential fields (`apiKey`, `serpApiKey`) hold
strings when present — all other config fields, including the default boolean
`webSearchEnabled` and null `uploadedFile`, are unconstrained — every field
present in the extracted secrets bundle is a non-empty string contributed by
a matching node's credential; a field with no truthy contributor is omitted;
and when the whole bundle is empty the save payload carries
`api_keys = null` instead of an object of empty strings. -/
theorem c6_secrets_bundle (nodes : List Node)
    (hs : credentialStrings nodes = true) :
    (∀ v, (extractApiKeys nodes).llm = some v →
      ∃ n ∈ nodes, llmContrib n = true ∧ ∃ s, s ≠ "" ∧ v = JVal.vStr s) ∧
    (∀ v, (extractApiKeys nodes).knowledge = some v →
      ∃ n ∈ nodes, kbContrib n = true ∧ ∃ s, s ≠ "" ∧ v = JVal.vStr s) ∧
    (∀ v, (extractApiKeys nodes).websearch = some v →
      ∃ n ∈ nodes, wsContrib n = true ∧ ∃ s, s ≠ "" ∧ v = JVal.vStr s) ∧
    ((∀ n ∈ nodes, llmContrib n = false) →
      (extractApiKeys nodes).llm = none) ∧
    ((∀ n ∈ nodes, kbContrib n = false) →
      (extractApiKeys nodes).knowledge = none) ∧
    ((∀ n ∈ nodes, wsContrib n = false) →
      (extractApiKeys nodes).websearch = none) ∧
    (∀ (st : StoreState) (resp : FetchResp SaveBody) (pl : SavePayload),
      st.nodes = nodes → (extractApiKeys nodes).nonempty = false →
      Request.save pl ∈ (saveWorkflow st resp).requests →
      pl.api_keys = none) := by
  refine ⟨?_, ?_, ?_, ?_, ?_, ?_, ?_⟩
  · intro v hv
    simp only [extractApiKeys] at hv
    by_cases ht : (nodes.foldl extractStep {}).llm.truthy = true
    · rw [if_pos ht] at hv
      rcases extract_fold_mem ApiKeysAcc.llm llmContrib
          (fun n => objGet n.configD "apiKey") extractStep_llm nodes {} with
        h | ⟨n, hn, hcn, hval⟩
      · rw [h] at ht
        simp [JVal.truthy] at ht
      · rw [hval] at ht hv
        obtain ⟨s, hsne, hv2⟩ :=
          credentialStrings_cred nodes hs n hn "apiKey" (Or.inl rfl) ht
        exact ⟨n, hn, hcn, s, hsne, by rw [← Option.some_inj.mp hv, hv2]⟩
    · rw [if_neg ht] at hv
      exact absurd hv (by simp)
  · intro v hv
    simp only [extractApiKeys] at hv
    by_cases ht : (nodes.foldl extractStep {}).knowledge.truthy = true
    · rw [if_pos ht] at hv
      rcases extract_fold_mem ApiKeysAcc.knowledge kbContrib
          (fun n => objGet n.configD "apiKey") extractStep_knowledge nodes {} with
        h | ⟨n, hn, hcn, hval⟩
      · rw [h] at ht
        simp [JVal.truthy] at ht
      · rw [hval] at ht hv
        obtain ⟨s, hsne, hv2⟩ :=
          credentialStrings_cred nodes hs n hn "apiKey" (Or.inl rfl) ht
        exact ⟨n, hn, hcn, s, hsne, by rw [← Option.some_inj.mp hv, hv2]⟩
    · rw [if_neg ht] at hv
      exact absurd hv (by simp)
  · intro v hv
    simp only [extractApiKeys] at hv
    by_cases ht : (nodes.foldl extractStep {}).websearch.truthy = true
    · rw [if_pos ht] at hv
      rcases extract_fold_mem ApiKeysAcc.websearch wsContrib
          (fun n => objGet n.configD "serpApiKey") extractStep_websearch
          nodes {} with h | ⟨n, hn, hcn, hval⟩
      · rw [h] at ht
        simp [JVal.truthy] at ht
      · rw [hval] at ht hv
        obtain ⟨s, hsne, hv2⟩ :=
          credentialStrings_cred nodes hs n hn "serpApiKey" (Or.inr rfl) ht
        exact ⟨n, hn, hcn, s, hsne, by rw [← Option.some_inj.mp hv, hv2]⟩
    · rw [if_neg ht] at hv
      exact absurd hv (by simp)
  · intro hall
    simp only [extractApiKeys]
    rw [extract_fold_const ApiKeysAcc.llm llmContrib
      (fun n => objGet n.configD "apiKey") extractStep_llm nodes {} hall]
    simp [JVal.truthy]
  · intro hall
    simp only [extractApiKeys]
    rw [extract_fold_const ApiKeysAcc.knowledge kbContrib
      (fun n => objGet n.configD "apiKey") extractStep_knowledge nodes {} hall]
    simp [JVal.truthy]
  · intro hall
    simp only [extractApiKeys]
    rw [extract_fold_const ApiKeysAcc.websearch wsContrib
      (fun n => objGet n.configD "serpApiKey") extractStep_websearch
      nodes {} hall]
    simp [JVal.truthy]
  · intro st resp pl hn hne hmem
    simp only [saveWorkflow] at hmem
    cases hsel : strOrNull st.selectedWorkflowId with
    | none =>
      rw [hsel] at hmem
      simp at hmem
    | some wid =>
      rw [hsel] at hmem
      cases resp <;>
        · simp only [List.mem_singleton, Request.save.injEq] at hmem
          rw [hmem]
          simp [hn, hne]

/-- A node list built exactly from the repository's default configs: the llm
node carries the boolean `webSearchEnabled` and an empty `serpApiKey`, the
knowledge-base node carries a null `uploadedFile` and an empty `apiKey`;
only the llm `apiKey` is a non-empty credential. -/
def exNodesDefaults : List Node :=
  [{ id := "uq1", type := some "userQueryNode"
     data := { type := some "userQueryNode"
               config := some [("query", JVal.vStr "What is RAG?")] } },
   { id := "llm1", type := some "llmNode"
     data := { type := some "llmNode"
               config := some
                 [("model", JVal.vStr "GPT-4o-Mini"),
                  ("apiKey", JVal.vStr "sk-1"),
                  ("temperature", JVal.vStr "0.7"),
                  ("webSearchEnabled", JVal.vBool false),
                  ("serpApiKey", JVal.vStr "")] } },
   { id := "kb1", type := some "knowledgeBaseNode"
     data := { type := some "knowledgeBaseNode"
               config := some
                 [("embeddingModel", JVal.vStr "text-embedding-3-large"),
                  ("apiKey", JVal.vStr ""),
                  ("uploadedFileName", JVal.vStr ""),
                  ("uploadedFile", JVal.vNull)] } },
   { id := "out1", type := some "outputNode"
     data := { type := some "outputNode"
               config := some
                 [("output",
                   JVal.vStr "Workflow output will appear here.")] } }]

/-- Witness for C6: the default-config graph (with its boolean
`webSearchEnabled` and null `uploadedFile` fields) satisfies the credential
hypothesis; the bundle omits the knowledge field (the knowledge-base node's
`apiKey` is empty) and any llm field present is a contributed non-empty
string. -/
theorem c6_secrets_bundle_witness :
    credentialStrings exNodesDefaults = true ∧
    (∀ n ∈ exNodesDefaults, kbContrib n = false) ∧
    (extractApiKeys exNodesDefaults).knowledge = none ∧
    (∀ v, (extractApiKeys exNodesDefaults).llm = some v →
      ∃ n ∈ exNodesDefaults, llmContrib n = true ∧
        ∃ s, s ≠ "" ∧ v = JVal.vStr s) :=
  ⟨by decide, by decide,
    (c6_secrets_bundle exNodesDefaults (by decide)).2.2.2.2.1 (by decide),
    (c6_secrets_bundle exNodesDefaults (by decide)).1⟩

/-- C10: the extracted bundle carries, for each of the three credential
fields, the value of the last contributing node in array order — later
contributors overwrite earlier ones. -/
theorem c10_last_credential_wins (pre post : List Node) (n : Node) :
    (llmContrib n = true → (∀ m ∈ post, llmContrib m = false) →
      (extractApiKeys (pre ++ n :: post)).llm =
        some (objGet n.configD "apiKey")) ∧
    (kbContrib n = true → (∀ m ∈ post, kbContrib m = false) →
      (extractApiKeys (pre ++ n :: post)).knowledge =
        some (objGet n.configD "apiKey")) ∧
    (wsContrib n = true → (∀ m ∈ post, wsContrib m = false) →
      (extractApiKeys (pre ++ n :: post)).websearch =
        some (objGet n.configD "serpApiKey")) := by
  refine ⟨?_, ?_, ?_⟩ <;> intro hc hpost <;> simp only [extractApiKeys]
  · rw [extract_fold_last ApiKeysAcc.llm llmContrib
      (fun n => objGet n.configD "apiKey") extractStep_llm pre post n {}
      hc hpost]
    simp [llmContrib_truthy n hc]
  · rw [extract_fold_last ApiKeysAcc.knowledge kbContrib
      (fun n => objGet n.configD "apiKey") extractStep_knowledge pre post n {}
      hc hpost]
    simp [kbContrib_truthy n hc]
  · rw [extract_fold_last ApiKeysAcc.websearch wsContrib
      (fun n => objGet n.configD "serpApiKey") extractStep_websearch
      pre post n {} hc hpost]
    simp [wsContrib_truthy n hc]

/-- A first llm node carrying the credential "k1". -/
def llmNodeA : Node :=
  { id := "llmA", type := some "llmNode"
    data := { type := some "llmNode"
              config := some [("apiKey", JVal.vStr "k1")] } }

/-- A second llm node carrying the credential "k2". -/
def llmNodeB : Node :=
  { id := "llmB", type := some "llmNode"
    data := { type := some "llmNode"
              config := some [("apiKey", JVal.vStr "k2")] } }

/-- Witness for C10: with two llm nodes holding non-empty keys, the bundle
carries the later node's key. -/
theorem c10_last_credential_wins_witness :
    llmContrib llmNodeB = true ∧
    (extractApiKeys ([llmNodeA] ++ llmNodeB :: [])).llm =
      some (JVal.vStr "k2") :=
  ⟨by decide,
    ((c10_last_credential_wins [llmNodeA] [] llmNodeB).1 (by decide)
      (by simp)).trans (by decide)⟩

/-- The graph of the C1 scenario: one user-query node still holding the
placeholder text, one output node, one llm node with an empty api key. -/
def exBlockedState : StoreState :=
  { selectedWorkflowId := some "wf1"
    nodes :=
      [{ id := "uq1", type := some "userQueryNode"
         data := { type := some "userQueryNode"
                   config := some
                     [("query", JVal.vStr "Write your query here")] } },
       { id := "out1", type := some "outputNode"
         data := { type := some "outputNode"
                   config := some
                     [("output",
                       JVal.vStr "Workflow output will appear here.")] } },
       { id := "llm1", type := some "llmNode"
         data := { type := some "llmNode"
                   config := some [("apiKey", JVal.vStr "")] } }]
    edges := [] }

/-- Counterexample for C1: on the placeholder-query/empty-key graph the
blocked outcome carries only the placeholder-query reason; the missing-LLM-
API-key reason is not reported (no network request is made, which is the
part of the claim that does hold). -/
theorem c1_counterexample :
    (handleRunWorkflow exBlockedState (FetchResp.ok {})
        (FetchResp.ok {})).outcome.message =
      "Please enter a query in the User Query node" ∧
    (handleRunWorkflow exBlockedState (FetchResp.ok {})
        (FetchResp.ok {})).outcome.error =
      some "Please enter a query in the User Query node" ∧
    (handleRunWorkflow exBlockedState (FetchResp.ok {})
        (FetchResp.ok {})).outcome.message ≠
      "Please configure an API key in your LLM node" ∧
    (handleRunWorkflow exBlockedState (FetchResp.ok {})
        (FetchResp.ok {})).outcome.error ≠
      some "Please configure an API key in your LLM node" ∧
    (handleRunWorkflow exBlockedState (FetchResp.ok {})
        (FetchResp.ok {})).requests = [] := by
  decide

lemma validateRun_query_error (nodes : List Node) (u : Node)
    (hfind : nodes.find? (fun n => n.type = some "userQueryNode") = some u)
    (hq : (objGet u.configD "query").truthy = false ∨
      objGet u.configD "query" = JVal.vStr "Write your query here") :
    validateRun nodes =
      .error "Please enter a query in the User Query node" := by
  simp only [validateRun, hfind]
  rcases hq with h | h
  · rw [h]
    simp [JVal.truthy]
  · rw [h]
    simp [JVal.truthy]

/-- C1 amended: on a graph whose first user-query node holds an empty or
placeholder query, the run handler returns a blocked outcome carrying only
that first failing reason (validation short-circuits in check order, so the
missing-LLM-API-key reason is not also reported), the state is untouched and
no network request (neither save nor execute) is issued. -/
theorem c1_blocked_first_reason (st : StoreState)
    (saveResp : FetchResp SaveBody) (execResp : FetchResp ExecBody) (u : Node)
    (hfind : st.nodes.find? (fun n => n.type = some "userQueryNode") = some u)
    (hq : (objGet u.configD "query").truthy = false ∨
      objGet u.configD "query" = JVal.vStr "Write your query here") :
    (handleRunWorkflow st saveResp execResp).outcome =
      { success := false
        message := "Please enter a query in the User Query node"
        error := some "Please enter a query in the User Query node" } ∧
    (handleRunWorkflow st saveResp execResp).requests = [] ∧
    (handleRunWorkflow st saveResp execResp).state = st := by
  unfold handleRunWorkflow
  rw [validateRun_query_error st.nodes u hfind hq]
  exact ⟨rfl, rfl, rfl⟩

/-- Witness for C1 amended: the concrete placeholder graph is blocked with
the query reason and no requests. -/
theorem c1_blocked_first_reason_witness :
    (handleRunWorkflow exBlockedState (FetchResp.ok {})
        (FetchResp.ok {})).outcome =
      { success := false
        message := "Please enter a query in the User Query node"
        error := some "Please enter a query in the User Query node" } ∧
    (handleRunWorkflow exBlockedState (FetchResp.ok {})
        (FetchResp.ok {})).requests = [] ∧
    (handleRunWorkflow exBlockedState (FetchResp.ok {})
        (FetchResp.ok {})).state = exBlockedState :=
  c1_blocked_first_reason exBlockedState (FetchResp.ok {}) (FetchResp.ok {})
    { id := "uq1", type := some "userQueryNode"
      data := { type := some "userQueryNode"
                config := some
                  [("query", JVal.vStr "Write your query here")] } }
    (by decide) (by decide)

/-- A one-node state used to connect towards a missing endpoint. -/
def exStateA : StoreState :=
  { selectedWorkflowId := some "wf1"
    nodes := [{ id := "A", type := some "userQueryNode"
                data := { type := some "userQueryNode" } }]
    edges := [] }

/-- Counterexample for C2: connecting node "A" to the nonexistent id "B"
still creates an edge — the edge count grows from 0 to 1 even though no node
has id "B". -/
theorem c2_counterexample :
    (onConnect exStateA ⟨"A", "B", none, none⟩ 5).edges.length = 1 ∧
    exStateA.edges.length = 0 ∧
    (∀ n ∈ exStateA.nodes, n.id ≠ "B") := by
  decide

/-- The edge object built by `onConnect` for a connection at time `now`. -/
def newEdgeOf (conn : Connection) (now : Nat) (nodes : List Node) : Edge :=
  { id := "e" ++ conn.source ++ "-" ++ conn.target ++ "-" ++ toString now
    source := conn.source
    target := conn.target
    sourceHandle := conn.sourceHandle
    targetHandle := conn.targetHandle
    type := some "smoothstep"
    animated := some true
    style := some ⟨"#FF6B6B", 2⟩
    data := some [("name", JVal.vStr (determineEdgeName conn nodes))] }

/-- C2 amended: a connection whose source or target id matches no node is NOT
rejected — as long as both ids are non-empty strings and the connection does
not duplicate an existing one, the edge is appended with the derived label
"Unknown" and the edge count grows by one.  (Only a falsy endpoint id or a
duplicate connection is dropped, by reactflow's `addEdge`.) -/
theorem c2_connect_missing_endpoint (st : StoreState) (conn : Connection)
    (now : Nat) (h1 : conn.source ≠ "") (h2 : conn.target ≠ "")
    (h3 : connectionExists (newEdgeOf conn now st.nodes) st.edges = false)
    (h4 : (∀ n ∈ st.nodes, n.id ≠ conn.source) ∨
      (∀ n ∈ st.nodes, n.id ≠ conn.target)) :
    (onConnect st conn now).edges = st.edges ++ [newEdgeOf conn now st.nodes] ∧
    (newEdgeOf conn now st.nodes).data =
      some [("name", JVal.vStr "Unknown")] ∧
    (onConnect st conn now).edges.length = st.edges.length + 1 := by
  have hname : determineEdgeName conn st.nodes = "Unknown" := by
    unfold determineEdgeName
    rcases h4 with h | h
    · have hs : st.nodes.find? (fun n => n.id = conn.source) = none :=
        List.find?_eq_none.mpr (fun n hn => by simpa using h n hn)
      rw [hs]
    · have ht : st.nodes.find? (fun n => n.id = conn.target) = none :=
        List.find?_eq_none.mpr (fun n hn => by simpa using h n hn)
      rw [ht]
      cases st.nodes.find? (fun n => n.id = conn.source) <;> rfl
  have hadd : (onConnect st conn now).edges =
      st.edges ++ [newEdgeOf conn now st.nodes] := by
    show addEdge (newEdgeOf conn now st.nodes) st.edges =
      st.edges ++ [newEdgeOf conn now st.nodes]
    unfold addEdge
    rw [if_neg (by simp [newEdgeOf, h1, h2]), if_neg (by simp [h3])]
  refine ⟨hadd, ?_, ?_⟩
  · unfold newEdgeOf
    rw [hname]
  · rw [hadd]
    simp

/-- Witness for C2 amended: the concrete connect("A","B") call appends one
"Unknown"-labelled edge. -/
theorem c2_connect_missing_endpoint_witness :
    (onConnect exStateA ⟨"A", "B", none, none⟩ 5).edges =
      exStateA.edges ++ [newEdgeOf ⟨"A", "B", none, none⟩ 5 exStateA.nodes] ∧
    (newEdgeOf ⟨"A", "B", none, none⟩ 5 exStateA.nodes).data =
      some [("name", JVal.vStr "Unknown")] ∧
    (onConnect exStateA ⟨"A", "B", none, none⟩ 5).edges.length =
      exStateA.edges.length + 1 :=
  c2_connect_missing_endpoint exStateA ⟨"A", "B", none, none⟩ 5
    (by decide) (by decide) (by decide) (Or.inr (by decide))

/-- Counterexample for C3: when the save request fails with status 500, the
failure outcome returned by `saveAndExecuteWorkflow` carries NO `type` key at
all (so in particular not `type = "save"`); the save/execute distinction
lives only in the message text.  The execute request is indeed never issued. -/
theorem c3_counterexample :
    (saveAndExecuteWorkflow exState (JVal.vStr "q")
        (FetchResp.httpErr 500 "boom") (FetchResp.ok {})).outcome.type =
      none ∧
    (saveAndExecuteWorkflow exState (JVal.vStr "q")
        (FetchResp.httpErr 500 "boom") (FetchResp.ok {})).outcome.success =
      false ∧
    (saveAndExecuteWorkflow exState (JVal.vStr "q")
        (FetchResp.httpErr 500 "boom")
        (FetchResp.ok {})).requests.countP Request.isExec = 0 := by
  decide

/-- C3 amended: when the save request fails (non-2xx response or transport
error), `saveAndExecuteWorkflow` returns a failure outcome with no `type`
discriminator; for a non-2xx save the outcome's error is
"Failed to save workflow: status body" and the message wraps it, so the
save-versus-execute distinction is carried only by the message text.  The
execute request is never issued and the state is unchanged. -/
theorem c3_save_failure_outcome (st : StoreState) (q : JVal)
    (saveResp : FetchResp SaveBody) (execResp : FetchResp ExecBody)
    (wid : String) (hsel : strOrNull st.selectedWorkflowId = some wid)
    (hfail : ∀ b, saveResp ≠ FetchResp.ok b) :
    (saveAndExecuteWorkflow st q saveResp execResp).outcome.success = false ∧
    (saveAndExecuteWorkflow st q saveResp execResp).outcome.type = none ∧
    (∀ req ∈ (saveAndExecuteWorkflow st q saveResp execResp).requests,
      req.isExec = false) ∧
    (saveAndExecuteWorkflow st q saveResp execResp).state = st ∧
    (∀ status body, saveResp = FetchResp.httpErr status body →
      (saveAndExecuteWorkflow st q saveResp execResp).outcome.error =
        some ("Failed to save workflow: " ++ toString status ++ " " ++ body) ∧
      (saveAndExecuteWorkflow st q saveResp execResp).outcome.message =
        "Failed to save and execute workflow: " ++
          ("Failed to save workflow: " ++ toString status ++ " " ++ body)) := by
  cases saveResp with
  | ok b => exact absurd rfl (hfail b)
  | httpErr status body =>
    have key : saveAndExecuteWorkflow st q (FetchResp.httpErr status body)
        execResp =
        ⟨st,
          seFailure
            ("Failed to save workflow: " ++ toString status ++ " " ++ body),
          [Request.save
            { stack_id := wid
              nodes := nodesToDict st.nodes
              edges := edgesToDict st.edges
              api_keys :=
                if (extractApiKeys st.nodes).nonempty then
                  some (extractApiKeys st.nodes)
                else none }]⟩ := by
      simp only [saveAndExecuteWorkflow, saveWorkflow, hsel]
    refine ⟨by rw [key]; rfl, by rw [key]; rfl, ?_, by rw [key], ?_⟩
    · intro req hreq
      rw [key] at hreq
      simp only [List.mem_singleton] at hreq
      rw [hreq]
      rfl
    · intro s b hsb
      injection hsb with hs hb
      subst hs
      subst hb
      exact ⟨by rw [key]; rfl, by rw [key]; rfl⟩
  | netErr m =>
    have key : saveAndExecuteWorkflow st q (FetchResp.netErr m) execResp =
        ⟨st, seFailure m,
          [Request.save
            { stack_id := wid
              nodes := nodesToDict st.nodes
              edges := edgesToDict st.edges
              api_keys :=
                if (extractApiKeys st.nodes).nonempty then
                  some (extractApiKeys st.nodes)
                else none }]⟩ := by
      simp only [saveAndExecuteWorkflow, saveWorkflow, hsel]
    refine ⟨by rw [key]; rfl, by rw [key]; rfl, ?_, by rw [key], ?_⟩
    · intro req hreq
      rw [key] at hreq
      simp only [List.mem_singleton] at hreq
      rw [hreq]
      rfl
    · intro s b hsb
      exact absurd hsb (by simp)

/-- Witness for C3 amended: a concrete 500 save failure yields a type-less
failure outcome, no execute request, and the expected message texts. -/
theorem c3_save_failure_outcome_witness :
    (saveAndExecuteWorkflow exState (JVal.vStr "q")
        (FetchResp.httpErr 500 "boom") (FetchResp.ok {})).outcome.type =
      none ∧
    (∀ req ∈ (saveAndExecuteWorkflow exState (JVal.vStr "q")
        (FetchResp.httpErr 500 "boom") (FetchResp.ok {})).requests,
      req.isExec = false) ∧
    (saveAndExecuteWorkflow exState (JVal.vStr "q")
        (FetchResp.httpErr 500 "boom") (FetchResp.ok {})).outcome.error =
      some ("Failed to save workflow: " ++ toString 500 ++ " " ++ "boom") :=
  ⟨(c3_save_failure_outcome exState (JVal.vStr "q")
      (FetchResp.httpErr 500 "boom") (FetchResp.ok {}) "wf1" rfl
      (fun b h => by cases h)).2.1,
    (c3_save_failure_outcome exState (JVal.vStr "q")
      (FetchResp.httpErr 500 "boom") (FetchResp.ok {}) "wf1" rfl
      (fun b h => by cases h)).2.2.1,
    ((c3_save_failure_outcome exState (JVal.vStr "q")
      (FetchResp.httpErr 500 "boom") (FetchResp.ok {}) "wf1" rfl
      (fun b h => by cases h)).2.2.2.2 500 "boom" rfl).1⟩

/-- The empty-graph state bound to a requested workflow id, as produced by
`loadWorkflow` on 404 and on transport errors. -/
def emptyBound (st : StoreState) (workflowId : String) : StoreState :=
  { st with
    selectedWorkflowId := some workflowId
    nodes := []
    edges := []
    workflowName := ""
    workflowDescription := "" }

/-- Counterexample for C8: `loadWorkflow` on the sentinel "new" id only
rebinds `selectedWorkflowId`; it does NOT clear the graph, so a state that
already holds nodes keeps them, contradicting "nodes and edges empty". -/
theorem c8_counterexample :
    (loadWorkflow exState "new" (FetchResp.netErr "ignored")).state.nodes =
      exState.nodes ∧
    exState.nodes ≠ [] ∧
    (loadWorkflow exState "new"
        (FetchResp.netErr "ignored")).state.selectedWorkflowId =
      some "new" ∧
    (loadWorkflow exState "new" (FetchResp.netErr "ignored")).requests =
      [] := by
  decide

/-- C8 amended: for the sentinel "new" (or empty or temp_) identifier,
`loadWorkflow` only binds `selectedWorkflowId` to the requested id, leaving
the existing nodes and edges untouched and issuing no request; for an id
whose load returns 404 it resets to an empty graph bound to that id and
returns true; for any other non-2xx status or transport error it also resets
to an empty graph bound to that id, returning false.  In no case does it
throw. -/
theorem c8_load_degrades (st : StoreState) (workflowId : String)
    (resp : FetchResp LoadBody) :
    (workflowId = "" ∨ workflowId = "new" ∨
        workflowId.startsWith "temp_" = true →
      loadWorkflow st workflowId resp =
        ⟨{ st with selectedWorkflowId := some workflowId }, true, []⟩) ∧
    (¬ (workflowId = "" ∨ workflowId = "new" ∨
        workflowId.startsWith "temp_" = true) →
      (∀ body, resp = FetchResp.httpErr 404 body →
        loadWorkflow st workflowId resp =
          ⟨emptyBound st workflowId, true, [Request.load workflowId]⟩) ∧
      (∀ status body, resp = FetchResp.httpErr status body → status ≠ 404 →
        loadWorkflow st workflowId resp =
          ⟨emptyBound st workflowId, false, [Request.load workflowId]⟩) ∧
      (∀ m, resp = FetchResp.netErr m →
        loadWorkflow st workflowId resp =
          ⟨emptyBound st workflowId, false, [Request.load workflowId]⟩)) := by
  constructor
  · intro hsent
    unfold loadWorkflow
    rw [if_pos hsent]
  · intro hsent
    refine ⟨?_, ?_, ?_⟩
    · intro body hb
      rw [hb]
      unfold loadWorkflow
      rw [if_neg hsent]
      rfl
    · intro status body hb hne
      rw [hb]
      unfold loadWorkflow
      rw [if_neg hsent]
      simp only [emptyBound, if_neg hne]
    · intro m hm
      rw [hm]
      unfold loadWorkflow
      rw [if_neg hsent]
      rfl

/-- Witness for C8 amended: loading "new" over a state with nodes keeps the
nodes and only rebinds the id; loading a real id that 404s resets to the
empty graph bound to it. -/
theorem c8_load_degrades_witness :
    loadWorkflow exState "new" (FetchResp.netErr "x") =
      ⟨{ exState with selectedWorkflowId := some "new" }, true, []⟩ ∧
    loadWorkflow exState "wf9" (FetchResp.httpErr 404 "not found") =
      ⟨emptyBound exState "wf9", true, [Request.load "wf9"]⟩ ∧
    loadWorkflow exState "wf9" (FetchResp.netErr "offline") =
      ⟨emptyBound exState "wf9", false, [Request.load "wf9"]⟩ :=
  ⟨(c8_load_degrades exState "new" (FetchResp.netErr "x")).1
      (Or.inr (Or.inl rfl)),
    ((c8_load_degrades exState "wf9" (FetchResp.httpErr 404 "not found")).2
      (by decide)).1 "not found" rfl,
    ((c8_load_degrades exState "wf9" (FetchResp.netErr "offline")).2
      (by decide)).2.2 "offline" rfl⟩

lemma countP_one_unique {α : Type} (l : List α) (p : α → Bool)
    (h : l.countP p = 1) :
    ∀ a ∈ l, ∀ b ∈ l, p a = true → p b = true → a = b := by
  induction l with
  | nil => intro a ha; simp at ha
  | cons hd tl ih =>
    intro a ha b hb hpa hpb
    rw [List.countP_cons] at h
    by_cases hphd : p hd = true
    · have htl : tl.countP p = 0 := by
        simp only [hphd, if_true] at h
        omega
      have hnotl : ∀ x ∈ tl, ¬ p x = true := List.countP_eq_zero.mp htl
      have ha2 : a = hd := by
        rcases List.mem_cons.mp ha with h1 | h1
        · exact h1
        · exact absurd hpa (hnotl a h1)
      have hb2 : b = hd := by
        rcases List.mem_cons.mp hb with h1 | h1
        · exact h1
        · exact absurd hpb (hnotl b h1)
      rw [ha2, hb2]
    · have htl : tl.countP p = 1 := by
        rw [Bool.not_eq_true] at hphd
        simp only [hphd, Bool.false_eq_true, if_false] at h
        omega
      have ha2 : a ∈ tl := by
        rcases List.mem_cons.mp ha with h1 | h1
        · exact absurd (h1 ▸ hpa) hphd
        · exact h1
      have hb2 : b ∈ tl := by
        rcases List.mem_cons.mp hb with h1 | h1
        · exact absurd (h1 ▸ hpb) hphd
        · exact h1
      exact ih htl a ha2 b hb2 hpa hpb

lemma saveWorkflow_ok (st : StoreState) (wid : String) (sb : SaveBody)
    (hsel : strOrNull st.selectedWorkflowId = some wid) :
    (saveWorkflow st (FetchResp.ok sb)).result = Except.ok sb ∧
    (saveWorkflow st (FetchResp.ok sb)).state.nodes = st.nodes ∧
    (saveWorkflow st (FetchResp.ok sb)).state.edges = st.edges := by
  refine ⟨?_, ?_, ?_⟩ <;>
    · obtain ⟨sid⟩ := sb
      cases sid with
      | none =>
        simp only [saveWorkflow, hsel]
      | some s =>
        simp only [saveWorkflow, hsel] <;>
          by_cases h : s ≠ "" ∧ s ≠ wid <;> simp [h]

/-- Counterexample for C7: an execute response that contains a `result` field
holding the empty string is NOT written into the Output node — the truthiness
guard `if (executeResult.result)` skips it, so the state is untouched and
`config.output` keeps its previous text instead of becoming the result
string. -/
theorem c7_counterexample :
    (saveAndExecuteWorkflow exState (JVal.vStr "hi")
        (FetchResp.ok { stack_id := some "wf1" })
        (FetchResp.ok { result := some (JVal.vStr "") })).state = exState ∧
    ((exState.nodes.find? (fun n => n.type = some "outputNode")).map
        (fun n => objGet n.configD "output")) =
      some (JVal.vStr "Workflow output will appear here.") ∧
    JVal.vStr "Workflow output will appear here." ≠ JVal.vStr "" := by
  decide

/-- C7 amended: for every execute response whose `result` is a NON-EMPTY
string and every graph with distinct node ids containing exactly one Output
node, a successful save-and-execute writes the result string into that Output
node's `config.output` — and this is the only node mutation performed: every
node that is not the Output node is unchanged, the Output node keeps its
other config keys and identity, and the edges are untouched. -/
theorem c7_execute_result_written (st : StoreState) (q : JVal) (sb : SaveBody)
    (eb : ExecBody) (wid : String) (r : String)
    (hsel : strOrNull st.selectedWorkflowId = some wid)
    (hnodup : (st.nodes.map Node.id).Nodup)
    (hcount : st.nodes.countP (fun n => n.type = some "outputNode") = 1)
    (hres : eb.result = some (JVal.vStr r)) (hr : r ≠ "") :
    (saveAndExecuteWorkflow st q (FetchResp.ok sb)
        (FetchResp.ok eb)).outcome.success = true ∧
    (saveAndExecuteWorkflow st q (FetchResp.ok sb)
        (FetchResp.ok eb)).state.edges = st.edges ∧
    (saveAndExecuteWorkflow st q (FetchResp.ok sb)
        (FetchResp.ok eb)).state.nodes.length = st.nodes.length ∧
    (∀ i : Fin st.nodes.length,
      ∀ j : Fin (saveAndExecuteWorkflow st q (FetchResp.ok sb)
        (FetchResp.ok eb)).state.nodes.length,
      (i : Nat) = (j : Nat) →
      ((st.nodes.get i).type ≠ some "outputNode" →
        (saveAndExecuteWorkflow st q (FetchResp.ok sb)
          (FetchResp.ok eb)).state.nodes.get j = st.nodes.get i) ∧
      ((st.nodes.get i).type = some "outputNode" →
        alookup ((saveAndExecuteWorkflow st q (FetchResp.ok sb)
            (FetchResp.ok eb)).state.nodes.get j).configD "output" =
          some (JVal.vStr r) ∧
        (∀ k, k ≠ "output" →
          alookup ((saveAndExecuteWorkflow st q (FetchResp.ok sb)
              (FetchResp.ok eb)).state.nodes.get j).configD k =
            alookup (st.nodes.get i).configD k) ∧
        ((saveAndExecuteWorkflow st q (FetchResp.ok sb)
            (FetchResp.ok eb)).state.nodes.get j).id =
          (st.nodes.get i).id ∧
        ((saveAndExecuteWorkflow st q (FetchResp.ok sb)
            (FetchResp.ok eb)).state.nodes.get j).type =
          (st.nodes.get i).type)) := by
  obtain ⟨hok, hnodes, hedges⟩ := saveWorkflow_ok st wid sb hsel
  have hsome : (st.nodes.find?
      (fun n => n.type = some "outputNode")).isSome := by
    rw [List.find?_isSome]
    have hpos : 0 < st.nodes.countP (fun n => n.type = some "outputNode") := by
      omega
    obtain ⟨a, ha, hpa⟩ := List.countP_pos_iff.mp hpos
    exact ⟨a, ha, hpa⟩
  obtain ⟨out, hfind⟩ := Option.isSome_iff_exists.mp hsome
  have hpout : out.type = some "outputNode" := by
    have := List.find?_some hfind
    simpa using this
  have hmemout : out ∈ st.nodes := List.mem_of_find?_eq_some hfind
  have hkey : saveAndExecuteWorkflow st q (FetchResp.ok sb)
      (FetchResp.ok eb) =
      ⟨updateNodeConfig (saveWorkflow st (FetchResp.ok sb)).state out.id
        [("output", JVal.vStr r)],
        { success := true
          saveResult := some sb
          executeResult := some eb
          message := "Workflow saved and executed successfully" },
        (saveWorkflow st (FetchResp.ok sb)).requests ++
          [Request.exec { stack_id := wid, query := q }]⟩ := by
    simp only [saveAndExecuteWorkflow, hok, hsel, hres, hfind,
      Option.getD_some]
    simp [JVal.truthy, hr]
  have hupd : (saveAndExecuteWorkflow st q (FetchResp.ok sb)
      (FetchResp.ok eb)).state.nodes =
      st.nodes.map (fun n : Node =>
        if n.id = out.id then
          { n with data := { n.data with
              config := some (mergeObj (n.data.config.getD [])
                [("output", JVal.vStr r)]) } }
        else n) := by
    rw [hkey]
    show ((saveWorkflow st (FetchResp.ok sb)).state.nodes.map _) = _
    rw [hnodes]
  refine ⟨by rw [hkey], ?_, ?_, ?_⟩
  · rw [hkey]
    show (saveWorkflow st (FetchResp.ok sb)).state.edges = st.edges
    exact hedges
  · rw [hupd]
    simp
  · intro i j hij
    have hget : (saveAndExecuteWorkflow st q (FetchResp.ok sb)
        (FetchResp.ok eb)).state.nodes.get j =
        (fun n : Node =>
          if n.id = out.id then
            { n with data := { n.data with
                config := some (mergeObj (n.data.config.getD [])
                  [("output", JVal.vStr r)]) } }
          else n) (st.nodes.get i) := by
      rw [List.get_of_eq hupd j]
      exact get_map_fin _ st.nodes i ⟨(j : Nat), by rw [← hupd]; exact j.2⟩
        hij
    constructor
    · intro hnot
      have hne : (st.nodes.get i).id ≠ out.id := by
        intro hcon
        have := List.inj_on_of_nodup_map hnodup
          (List.get_mem st.nodes i.1 i.2) hmemout hcon
        rw [this, hpout] at hnot
        exact hnot rfl
      rw [hget]
      exact if_neg hne
    · intro hout
      have heqout : st.nodes.get i = out :=
        countP_one_unique st.nodes
          (fun n => n.type = some "outputNode") hcount _
          (List.get_mem st.nodes i.1 i.2) _ hmemout
          (by simpa using hout) (by simpa using hpout)
      have hid : (st.nodes.get i).id = out.id := by rw [heqout]
      rw [hget]
      simp only [if_pos hid]
      refine ⟨?_, ?_, ?_, ?_⟩
      case refine_3 => trivial
      case refine_4 => trivial
      · simp only [Node.configD, Option.getD_some]
        exact mergeObj_lookup_of_some _ _ _ _ (by simp [alookup])
      · intro k hk
        simp only [Node.configD, Option.getD_some]
        exact mergeObj_lookup_of_none _ _ _
          (by simp [alookup, Ne.symm hk])

/-- Witness for C7 amended: executing the concrete graph with result "42"
makes the Output node's `config.output` equal "42" and leaves the user-query
node untouched. -/
theorem c7_execute_result_written_witness :
    (saveAndExecuteWorkflow exState (JVal.vStr "What is RAG?")
        (FetchResp.ok { stack_id := some "wf1" })
        (FetchResp.ok { result := some (JVal.vStr "42") })).outcome.success =
      true ∧
    alookup ((saveAndExecuteWorkflow exState (JVal.vStr "What is RAG?")
        (FetchResp.ok { stack_id := some "wf1" })
        (FetchResp.ok { result := some (JVal.vStr "42") })).state.nodes.get
        ⟨2, by decide⟩).configD "output" = some (JVal.vStr "42") ∧
    (saveAndExecuteWorkflow exState (JVal.vStr "What is RAG?")
        (FetchResp.ok { stack_id := some "wf1" })
        (FetchResp.ok { result := some (JVal.vStr "42") })).state.nodes.get
        ⟨0, by decide⟩ = exState.nodes.get ⟨0, by decide⟩ :=
  ⟨(c7_execute_result_written exState (JVal.vStr "What is RAG?")
      { stack_id := some "wf1" } { result := some (JVal.vStr "42") }
      "wf1" "42" rfl (by decide) (by decide) rfl (by decide)).1,
    (((c7_execute_result_written exState (JVal.vStr "What is RAG?")
      { stack_id := some "wf1" } { result := some (JVal.vStr "42") }
      "wf1" "42" rfl (by decide) (by decide) rfl (by decide)).2.2.2
      ⟨2, by decide⟩ ⟨2, by decide⟩ rfl).2 (by decide)).1,
    ((c7_execute_result_written exState (JVal.vStr "What is RAG?")
      { stack_id := some "wf1" } { result := some (JVal.vStr "42") }
      "wf1" "42" rfl (by decide) (by decide) rfl (by decide)).2.2.2
      ⟨0, by decide⟩ ⟨0, by decide⟩ rfl).1 (by decide)⟩

end Workflow
